import Mathlib

/-!
Verification of the retrieval-and-validation core of the SaaS support copilot
backend.  The definitions below are a shallow embedding of
`backend/app/rag_pipeline.py` (classes `HybridRetriever` and `RAGPipeline`)
together with the configuration defaults of `backend/app/config.py`.

Modelling conventions:
* Python floats are modelled as rationals (`ℚ`); all score arithmetic in the
  source is elementary (+, *, /, max, variance), so rationals are exact.
* External library calls (FAISS `similarity_search_with_score`, rank-bm25
  `get_scores`, the LLM backends, wall-clock time) are modelled as explicit
  inputs/oracles of the functions that consume them.
* Python strings are modelled through their character lists; `str.split()`,
  `str.lower()` and `str.strip()` are re-implemented structurally on
  `List Char` so that every definition is kernel-executable.
* Python `sorted(..., reverse=True)` is a stable descending sort; it is
  modelled by a stable insertion sort (`insertDesc`/`sortDesc`).
-/

namespace Rag

/-- Metadata attached to a knowledge-base record, as built by
`RAGPipeline._load_documents` (the `source` constant field is elided;
`id`, `category`, `question`, `answer`, `tags` are the fields the
retrieval result dictionaries reference). -/
structure ChunkMeta where
  id : String
  category : String
  question : String
  answer : String
  tags : List String
  deriving DecidableEq, Repr

/-- A retrieved chunk as returned by `RAGPipeline.retrieve`: a dict with
`content`, fused `score` and a `metadata` sub-dict. -/
structure Chunk where
  content : String
  score : ℚ
  metadata : ChunkMeta
  deriving DecidableEq, Repr

/-- A document as produced by `HybridRetriever._get_relevant_documents`:
a LangChain `Document` whose metadata carries the originating record's
fields plus `score`, `vector_score` and `bm25_score`. -/
structure RetrievedDoc where
  content : String
  metadata : ChunkMeta
  score : ℚ
  vector_score : ℚ
  bm25_score : ℚ
  deriving DecidableEq, Repr

/-- The configuration surface of `backend/app/config.py` consumed by the
pipeline (class `Settings`). -/
structure Config where
  similarity_threshold : ℚ
  max_context_chunks : ℕ
  variance_threshold : ℚ
  keyword_overlap_threshold : ℚ
  vector_weight : ℚ
  bm25_weight : ℚ
  debug : Bool
  deriving DecidableEq, Repr

/-- The `Settings` defaults: `similarity_threshold = 0.65`,
`max_context_chunks = 5`, `variance_threshold = 0.1`,
`keyword_overlap_threshold = 0.2`, `vector_weight = 0.7`,
`bm25_weight = 0.3`, `debug = False`. -/
def defaultConfig : Config :=
  { similarity_threshold := 13/20
    max_context_chunks := 5
    variance_threshold := 1/10
    keyword_overlap_threshold := 1/5
    vector_weight := 7/10
    bm25_weight := 3/10
    debug := false }

/-! ### Python string primitives, re-implemented structurally -/

/-- Helper for `pySplit`: walks the character list accumulating the current
word (reversed); whitespace flushes the accumulator.  Mirrors Python
`str.split()` with no separator: runs of whitespace delimit words and no
empty words are produced. -/
def splitAuxWs : List Char → List Char → List String
  | [], acc => if acc = [] then [] else [String.mk acc.reverse]
  | c :: cs, acc =>
    if c.isWhitespace then
      if acc = [] then splitAuxWs cs []
      else String.mk acc.reverse :: splitAuxWs cs []
    else splitAuxWs cs (c :: acc)

/-- Python `s.split()` (whitespace split, empty pieces dropped). -/
def pySplit (s : String) : List String := splitAuxWs s.data []

/-- Python `s.lower()` (character-wise lowering). -/
def pyLower (s : String) : String := String.mk (s.data.map Char.toLower)

/-- Python `s.strip()` (drop leading and trailing whitespace). -/
def pyStrip (s : String) : String :=
  String.mk (((s.data.dropWhile Char.isWhitespace).reverse.dropWhile
    Char.isWhitespace).reverse)

/-- Python truthiness test `not s or not s.strip()` used by
`RAGPipeline.query` and `RAGPipeline.retrieve`: the string is empty or
consists only of whitespace. -/
def isBlank (s : String) : Bool := s.data.all Char.isWhitespace

/-- Does `needle` occur at the head of `hay`? -/
def startsWithChars : List Char → List Char → Bool
  | [], _ => true
  | _ :: _, [] => false
  | a :: as, b :: bs => a = b && startsWithChars as bs

/-- Python substring test `needle in hay` on character lists. -/
def containsSub (needle : List Char) : List Char → Bool
  | [] => needle.isEmpty
  | c :: cs => startsWithChars needle (c :: cs) || containsSub needle cs

/-- Tokenization used by the lexical side and by the consistency of the
retriever: `query.lower().split()`. -/
def tokenize (q : String) : List String := pySplit (pyLower q)

/-! ### Lexical (BM25) score normalization
(`HybridRetriever._get_relevant_documents`, lines 109-113) -/

/-- `numpy` max over the raw BM25 score vector (`bm25_scores.max()`);
the corpus is non-empty in the source (`_build_indices` raises on an
empty corpus), the empty case is totalized to `0`. -/
def listMax : List ℚ → ℚ
  | [] => 0
  | x :: xs => xs.foldl max x

/-- `bm25_max = bm25_scores.max() if bm25_scores.max() > 0 else 1`. -/
def bm25MaxOf (braw : List ℚ) : ℚ :=
  if 0 < listMax braw then listMax braw else 1

/-- `bm25_scores_normalized = bm25_scores / bm25_max if bm25_max > 0 else
bm25_scores`. -/
def bm25NormalizedOf (braw : List ℚ) : List ℚ :=
  if 0 < bm25MaxOf braw then braw.map (fun s => s / bm25MaxOf braw) else braw

/-- The normalized lexical score of document `i`
(`bm25_scores_normalized[idx]`, totalized with default `0`). -/
def bm25ScoreOf (braw : List ℚ) (i : ℕ) : ℚ :=
  (bm25NormalizedOf braw).getD i 0

/-! ### Vector (semantic) scores
(`HybridRetriever._get_relevant_documents`, lines 92-102) -/

/-- Conversion of a FAISS L2 distance to a similarity:
`similarity = 1 / (1 + score)`. -/
def simOfDist (d : ℚ) : ℚ := 1 / (1 + d)

/-- The `vector_scores_dict` build: the FAISS top-`2k` result is modelled as
a list of (resolved document index, L2 distance) pairs; dict insertion makes
the last entry for an index win.  Documents absent from the dict get no
entry. -/
def vectorScoresDict (vdocs : List (ℕ × ℚ)) (i : ℕ) : Option ℚ :=
  vdocs.foldl (fun acc p => if p.1 = i then some (simOfDist p.2) else acc) none

/-- `vector_scores_dict.get(idx, 0.0)`. -/
def vectorScoreOf (vdocs : List (ℕ × ℚ)) (i : ℕ) : ℚ :=
  (vectorScoresDict vdocs i).getD 0

/-! ### Hybrid ranking (`HybridRetriever._get_relevant_documents`) -/

/-- The per-query state of the hybrid retriever: the corpus texts and
metadata (positionally aligned), the fusion weights and the retriever's
`k`. -/
structure RetrieverEnv where
  documentTexts : List String
  metadata : List ChunkMeta
  vector_weight : ℚ
  bm25_weight : ℚ
  k : ℕ
  deriving DecidableEq, Repr

/-- The fused score of document `i`:
`combined = vector_weight * vector_score + bm25_weight * bm25_score`. -/
def combinedScore (env : RetrieverEnv) (vdocs : List (ℕ × ℚ))
    (braw : List ℚ) (i : ℕ) : ℚ :=
  env.vector_weight * vectorScoreOf vdocs i +
    env.bm25_weight * bm25ScoreOf braw i

/-- Stable descending insertion: `x` is placed before the first element
whose key does not exceed `x`'s key, so among equal keys the earlier
(input-order) element stays first. -/
def insertDesc (key : ℕ → ℚ) (x : ℕ) : List ℕ → List ℕ
  | [] => [x]
  | y :: ys => if key y ≤ key x then x :: y :: ys else y :: insertDesc key x ys

/-- Stable descending sort by `key`; models Python
`sorted(items, key=value, reverse=True)`, which is documented to be stable
(equal elements keep their original relative order, also with
`reverse=True`). -/
def sortDesc (key : ℕ → ℚ) : List ℕ → List ℕ
  | [] => []
  | x :: xs => insertDesc key x (sortDesc key xs)

/-- `sorted_indices`: all corpus document indices sorted by combined score
descending (the dict `combined_scores` is built over `range(len(texts))`
in insertion order, so the sort input is `0, 1, ..., n-1`). -/
def rankedIndices (env : RetrieverEnv) (vdocs : List (ℕ × ℚ))
    (braw : List ℚ) : List ℕ :=
  sortDesc (combinedScore env vdocs braw) (List.range env.documentTexts.length)

/-- The LangChain `Document` built for top index `i`: content and the
record's metadata plus the fused and component scores.  (Out-of-range
indices are totalized with defaults; the source indexes positionally
aligned lists.) -/
def mkRetrievedDoc (env : RetrieverEnv) (vdocs : List (ℕ × ℚ))
    (braw : List ℚ) (i : ℕ) : RetrievedDoc :=
  { content := env.documentTexts.getD i ""
    metadata := env.metadata.getD i ⟨"", "", "", "", []⟩
    score := combinedScore env vdocs braw i
    vector_score := vectorScoreOf vdocs i
    bm25_score := bm25ScoreOf braw i }

/-- `HybridRetriever._get_relevant_documents`: empty tokenized query
short-circuits to `[]`; otherwise the top `k` indices by fused score are
turned into documents. -/
def hybridSearch (env : RetrieverEnv) (vdocs : List (ℕ × ℚ))
    (braw : List ℚ) (query : String) : List RetrievedDoc :=
  if tokenize query = [] then []
  else ((rankedIndices env vdocs braw).take env.k).map
    (mkRetrievedDoc env vdocs braw)

/-- Result formatting of `RAGPipeline.retrieve`: keeps `content`, the fused
`score` and the metadata sub-dict (dropping the component scores). -/
def toChunk (d : RetrievedDoc) : Chunk :=
  { content := d.content, score := d.score, metadata := d.metadata }

/-- `RAGPipeline.retrieve`: blank queries return `[]`; otherwise the
retriever's documents are truncated to `top_k` and formatted. -/
def retrieve (env : RetrieverEnv) (vdocs : List (ℕ × ℚ)) (braw : List ℚ)
    (query : String) (topK : ℕ) : List Chunk :=
  if isBlank query then []
  else ((hybridSearch env vdocs braw query).take topK).map toChunk

/-! ### Relevance validation (`RAGPipeline.validate_relevance`) -/

/-- Which branch of `validate_relevance` produced the returned reason
string.  The source returns f-strings interpolating the offending value;
the constructors carry that value (the fixed surrounding text is rendered
by `reasonText`). -/
inductive ValidationReason where
  | noChunks
  | belowThreshold (score threshold : ℚ)
  | highVariance (variance : ℚ)
  | lowOverlap (overlap : ℚ)
  | allPassed
  deriving DecidableEq, Repr

/-- The fixed text of each reason string (numeric interpolation of the
source's f-strings elided). -/
def reasonText : ValidationReason → String
  | .noChunks => "No chunks retrieved"
  | .belowThreshold _ _ => "Similarity score below threshold"
  | .highVariance _ => "High score variance indicates ambiguous query"
  | .lowOverlap _ =>
      "Low keyword overlap - retrieved content may not be relevant"
  | .allPassed => "All validation checks passed"

/-- `np.var`: the population variance of a score list (mean of squared
deviations from the mean). -/
def popVariance (xs : List ℚ) : ℚ :=
  ((xs.map (fun x => (x - xs.sum / xs.length) *
    (x - xs.sum / xs.length))).sum) / xs.length

/-- The word set `set(w.lower() for w in s.split() if len(w) > 2)` used by
the content-coverage check, as a deduplicated list. -/
def contentWords (s : String) : List String :=
  (((pySplit s).filter (fun w => 2 < w.data.length)).map pyLower).dedup

/-- `len(query_words & chunk_words) / len(query_words)`: the fraction of
(deduplicated) query words occurring among the chunk's words. -/
def overlapFrac (qws cws : List String) : ℚ :=
  ((qws.filter (fun w => w ∈ cws)).length : ℚ) / (qws.length : ℚ)

/-- `RAGPipeline.validate_relevance`: three-stage gate returning
`(is_valid, confidence, reason)`.  Stage 1 blocks when the top fused score
is below `similarity_threshold`; stage 2 (only with at least 3 chunks)
blocks when the population variance of the top-3 fused scores exceeds
`variance_threshold`; stage 3 (only with a non-empty query word set)
blocks when keyword overlap with the top chunk is below
`keyword_overlap_threshold`. -/
def validate (cfg : Config) (chunks : List Chunk) (query : String) :
    Bool × ℚ × ValidationReason :=
  match chunks with
  | [] => (false, 0, ValidationReason.noChunks)
  | top :: rest =>
    if top.score < cfg.similarity_threshold then
      (false, top.score,
        ValidationReason.belowThreshold top.score cfg.similarity_threshold)
    else if 3 ≤ (top :: rest).length ∧
        cfg.variance_threshold <
          popVariance (((top :: rest).take 3).map Chunk.score) then
      (false, top.score,
        ValidationReason.highVariance
          (popVariance (((top :: rest).take 3).map Chunk.score)))
    else if contentWords query ≠ [] ∧
        overlapFrac (contentWords query) (contentWords top.content) <
          cfg.keyword_overlap_threshold then
      (false, top.score,
        ValidationReason.lowOverlap
          (overlapFrac (contentWords query) (contentWords top.content)))
    else
      (true, top.score, ValidationReason.allPassed)

/-! ### Answer generation post-processing (`RAGPipeline.generate_answer`) -/

/-- The fixed refusal-phrase list of `generate_answer`. -/
def refusalPatterns : List String :=
  ["i don\x27t know", "i cannot", "i\x27m unable", "i don\x27t have",
   "insufficient information", "i don\x27t have enough",
   "cannot answer", "unable to answer"]

/-- `any(pattern in answer.lower() for pattern in refusal_patterns)`. -/
def containsRefusal (answer : String) : Bool :=
  refusalPatterns.any (fun p => containsSub p.data (pyLower answer).data)

/-- The post-processing of `generate_answer` applied to the raw text `raw`
produced by whichever generation backend ran (inference API, local model,
or the no-model fallback): strip, substitute the top chunk's stored answer
on a refusal phrase, and substitute it again when the result is empty or
shorter than 10 characters.  Empty chunk lists return the fixed
no-information message. -/
def generateAnswer (chunks : List Chunk) (raw : String) : String :=
  match chunks with
  | [] =>
    "I don\x27t have enough information to answer this question. Please try rephrasing or contact support."
  | top :: _ =>
    let stripped := pyStrip raw
    let afterRefusal :=
      if containsRefusal stripped then top.metadata.answer else stripped
    if afterRefusal = "" ∨ afterRefusal.data.length < 10 then
      top.metadata.answer
    else afterRefusal

/-! ### Query orchestration (`RAGPipeline.query`) -/

/-- A chunk as formatted for the query response (content, score, and the
`id`/`category` metadata sub-dict). -/
structure FmtChunk where
  content : String
  score : ℚ
  id : String
  category : String
  deriving DecidableEq, Repr

/-- The response-formatting loop of `query`. -/
def fmtChunk (c : Chunk) : FmtChunk :=
  { content := c.content, score := c.score,
    id := c.metadata.id, category := c.metadata.category }

/-- The dictionary returned by `RAGPipeline.query`. -/
structure QueryResult where
  answer : String
  chunks : List FmtChunk
  confidence : ℚ
  blocked : Bool
  response_time_ms : ℚ
  deriving DecidableEq, Repr

/-- The fixed refusal answer returned on a validation block when `debug`
is off. -/
def blockedAnswer : String :=
  "I don\x27t have enough information to answer this question. Please try rephrasing or contact support."

/-- The refusal answer with the validation reason interpolated (the
`debug` branch of `query`). -/
def blockedAnswerDebug (r : ValidationReason) : String :=
  "I don\x27t have enough information to answer this question. (" ++
    reasonText r ++ ") Please try rephrasing or contact support."

/-- The `try` body of `RAGPipeline.query`: retrieval, validation and
generation are consumed as `Except`-valued oracles so that an exception in
any stage is an explicit `.error`.  `t` is the measured elapsed time (the
`time.time()` difference is abstracted as an input). -/
def queryBody (cfg : Config)
    (retrieveO : Except String (List Chunk))
    (validateO : List Chunk → String → Except String (Bool × ℚ × ValidationReason))
    (genO : List Chunk → Except String String)
    (q : String) (t : ℚ) : Except String QueryResult :=
  match retrieveO with
  | .error e => .error e
  | .ok chunks =>
    match validateO chunks q with
    | .error e => .error e
    | .ok (isValid, confidence, reason) =>
      match (if isValid then (genO chunks).map (fun a => (a, false))
             else .ok (if cfg.debug then blockedAnswerDebug reason
                       else blockedAnswer, true)) with
      | .error e => .error e
      | .ok (answer, blocked) =>
        .ok { answer := answer
              chunks := chunks.map fmtChunk
              confidence := confidence
              blocked := blocked
              response_time_ms := t }

/-- `RAGPipeline.query`: blank queries are rejected before any retrieval;
otherwise the body runs under a catch-all that converts any raised error
into the generic apology result. -/
def queryRun (cfg : Config)
    (retrieveO : Except String (List Chunk))
    (validateO : List Chunk → String → Except String (Bool × ℚ × ValidationReason))
    (genO : List Chunk → Except String String)
    (q : String) (t : ℚ) : QueryResult :=
  if isBlank q then
    { answer := "Please provide a valid question."
      chunks := []
      confidence := 0
      blocked := true
      response_time_ms := t }
  else
    match queryBody cfg retrieveO validateO genO q t with
    | .ok r => r
    | .error _ =>
      { answer := "I encountered an error while processing your question. Please try again or contact support."
        chunks := []
        confidence := 0
        blocked := true
        response_time_ms := t }

/-! ### Helper lemmas -/

theorem mem_insertDesc {key : ℕ → ℚ} {x z : ℕ} {l : List ℕ} :
    z ∈ insertDesc key x l ↔ z = x ∨ z ∈ l := by
  induction l with
  | nil => simp [insertDesc]
  | cons y ys ih =>
    simp only [insertDesc]
    split
    · simp [List.mem_cons]
    · simp only [List.mem_cons, ih]
      tauto

theorem insertDesc_perm (key : ℕ → ℚ) (x : ℕ) (l : List ℕ) :
    List.Perm (insertDesc key x l) (x :: l) := by
  induction l with
  | nil => simp [insertDesc]
  | cons y ys ih =>
    simp only [insertDesc]
    split
    · exact List.Perm.refl _
    · exact List.Perm.trans (List.Perm.cons y ih) (List.Perm.swap x y ys)

theorem sortDesc_perm (key : ℕ → ℚ) (l : List ℕ) :
    List.Perm (sortDesc key l) l := by
  induction l with
  | nil => exact List.Perm.refl _
  | cons x xs ih =>
    exact List.Perm.trans (insertDesc_perm key x (sortDesc key xs))
      (List.Perm.cons x ih)

/-- The strict ranking order realized by a stable descending sort of a
list with strictly increasing entries: larger key first, ties by smaller
original index first. -/
def rankRel (key : ℕ → ℚ) (a b : ℕ) : Prop :=
  key b < key a ∨ (key a = key b ∧ a < b)

theorem insertDesc_pairwise {key : ℕ → ℚ} {x : ℕ} {l : List ℕ}
    (hl : l.Pairwise (rankRel key)) (hx : ∀ y ∈ l, x < y) :
    (insertDesc key x l).Pairwise (rankRel key) := by
  induction l with
  | nil => simp [insertDesc, List.pairwise_cons]
  | cons y ys ih =>
    rcases List.pairwise_cons.mp hl with ⟨hy, hys⟩
    simp only [insertDesc]
    split
    · next hle =>
      refine List.pairwise_cons.mpr ⟨?_, hl⟩
      intro z hz
      rcases List.mem_cons.mp hz with rfl | hzys
      · rcases lt_or_eq_of_le hle with hlt | heq
        · exact Or.inl hlt
        · exact Or.inr ⟨heq.symm, hx z (List.mem_cons_self _ _)⟩
      · rcases hy z hzys with hlt | ⟨heq, _⟩
        · exact Or.inl (lt_of_lt_of_le hlt hle)
        · have hzx : key z ≤ key x := heq ▸ hle
          rcases lt_or_eq_of_le hzx with hlt | heq2
          · exact Or.inl hlt
          · exact Or.inr ⟨heq2.symm, hx z (List.mem_cons_of_mem _ hzys)⟩
    · next hgt =>
      have hxy : key x < key y := lt_of_not_le hgt
      refine List.pairwise_cons.mpr ⟨?_, ?_⟩
      · intro z hz
        rcases mem_insertDesc.mp hz with rfl | hzys
        · exact Or.inl hxy
        · exact hy z hzys
      · exact ih hys (fun y' hy' => hx y' (List.mem_cons_of_mem _ hy'))

theorem sortDesc_pairwise {key : ℕ → ℚ} {l : List ℕ}
    (hl : l.Pairwise (· < ·)) :
    (sortDesc key l).Pairwise (rankRel key) := by
  induction l with
  | nil => simp [sortDesc]
  | cons x xs ih =>
    rcases List.pairwise_cons.mp hl with ⟨hx, hxs⟩
    refine insertDesc_pairwise (ih hxs) ?_
    intro y hy
    exact hx y ((sortDesc_perm key xs).mem_iff.mp hy)

theorem le_foldl_max (l : List ℚ) (a : ℚ) : a ≤ l.foldl max a := by
  induction l generalizing a with
  | nil => exact le_refl a
  | cons x xs ih => exact le_trans (le_max_left a x) (ih (max a x))

theorem mem_le_foldl_max {l : List ℚ} {y : ℚ} (hy : y ∈ l) (a : ℚ) :
    y ≤ l.foldl max a := by
  induction l generalizing a with
  | nil => cases hy
  | cons x xs ih =>
    rcases List.mem_cons.mp hy with rfl | hmem
    · exact le_trans (le_max_right a y) (le_foldl_max xs (max a y))
    · exact ih hmem (max a x)

theorem mem_le_listMax {l : List ℚ} {y : ℚ} (hy : y ∈ l) : y ≤ listMax l := by
  cases l with
  | nil => cases hy
  | cons x xs =>
    rcases List.mem_cons.mp hy with rfl | hmem
    · exact le_foldl_max xs y
    · exact mem_le_foldl_max hmem x

theorem bm25MaxOf_pos (braw : List ℚ) : 0 < bm25MaxOf braw := by
  unfold bm25MaxOf
  split
  · assumption
  · exact one_pos

theorem bm25Normalized_bounds {braw : List ℚ} (hb : ∀ s ∈ braw, 0 ≤ s) :
    ∀ x ∈ bm25NormalizedOf braw, 0 ≤ x ∧ x ≤ 1 := by
  intro x hx
  unfold bm25NormalizedOf at hx
  rw [if_pos (bm25MaxOf_pos braw)] at hx
  rcases List.mem_map.mp hx with ⟨s, hs, rfl⟩
  have hs0 : 0 ≤ s := hb s hs
  have hsmax : s ≤ listMax braw := mem_le_listMax hs
  unfold bm25MaxOf
  split
  · next hpos =>
    exact ⟨div_nonneg hs0 (le_of_lt hpos), (div_le_one hpos).mpr hsmax⟩
  · next hneg =>
    have : s = 0 := le_antisymm (le_trans hsmax (not_lt.mp hneg)) hs0
    simp [this]

theorem bm25ScoreOf_bounds {braw : List ℚ} (hb : ∀ s ∈ braw, 0 ≤ s)
    (i : ℕ) : 0 ≤ bm25ScoreOf braw i ∧ bm25ScoreOf braw i ≤ 1 := by
  unfold bm25ScoreOf
  rcases Nat.lt_or_ge i (bm25NormalizedOf braw).length with hlt | hge
  · rw [List.getD_eq_getElem _ _ hlt]
    exact bm25Normalized_bounds hb _ (List.getElem_mem hlt)
  · rw [List.getD_eq_default _ _ hge]
    norm_num

theorem simOfDist_bounds {d : ℚ} (hd : 0 ≤ d) :
    0 ≤ simOfDist d ∧ simOfDist d ≤ 1 := by
  have hpos : (0:ℚ) < 1 + d := by linarith
  unfold simOfDist
  constructor
  · exact le_of_lt (div_pos one_pos hpos)
  · rw [div_le_one hpos]
    linarith

theorem vectorScoresDict_bounds {vdocs : List (ℕ × ℚ)}
    (hd : ∀ p ∈ vdocs, 0 ≤ p.2) (i : ℕ) :
    ∀ s, vectorScoresDict vdocs i = some s → 0 ≤ s ∧ s ≤ 1 := by
  unfold vectorScoresDict
  suffices h : ∀ (acc : Option ℚ),
      (∀ s, acc = some s → 0 ≤ s ∧ s ≤ 1) →
      ∀ s, vdocs.foldl
        (fun acc p => if p.1 = i then some (simOfDist p.2) else acc) acc =
          some s → 0 ≤ s ∧ s ≤ 1 by
    exact h none (by intro s h; cases h)
  induction vdocs with
  | nil => intro acc hacc s hs; exact hacc s hs
  | cons p ps ih =>
    intro acc hacc s hs
    rw [List.foldl_cons] at hs
    refine ih (fun q hq => hd q (List.mem_cons_of_mem _ hq)) _ ?_ s hs
    intro s' hs'
    change (if p.1 = i then some (simOfDist p.2) else acc) = some s' at hs'
    by_cases hpi : p.1 = i
    · rw [if_pos hpi] at hs'
      injection hs' with h
      exact h ▸ simOfDist_bounds (hd p (List.mem_cons_self _ _))
    · rw [if_neg hpi] at hs'
      exact hacc s' hs'

theorem vectorScoreOf_bounds {vdocs : List (ℕ × ℚ)}
    (hd : ∀ p ∈ vdocs, 0 ≤ p.2) (i : ℕ) :
    0 ≤ vectorScoreOf vdocs i ∧ vectorScoreOf vdocs i ≤ 1 := by
  unfold vectorScoreOf
  cases h : vectorScoresDict vdocs i with
  | none => norm_num
  | some s => exact vectorScoresDict_bounds hd i s h

theorem combinedScore_bounds {env : RetrieverEnv} {vdocs : List (ℕ × ℚ)}
    {braw : List ℚ}
    (hw1 : 0 ≤ env.vector_weight) (hw2 : 0 ≤ env.bm25_weight)
    (hw : env.vector_weight + env.bm25_weight ≤ 1)
    (hd : ∀ p ∈ vdocs, 0 ≤ p.2) (hb : ∀ s ∈ braw, 0 ≤ s) (i : ℕ) :
    0 ≤ combinedScore env vdocs braw i ∧
      combinedScore env vdocs braw i ≤ 1 := by
  rcases vectorScoreOf_bounds hd i with ⟨hv0, hv1⟩
  rcases bm25ScoreOf_bounds hb i with ⟨hb0, hb1⟩
  unfold combinedScore
  constructor
  · exact add_nonneg (mul_nonneg hw1 hv0) (mul_nonneg hw2 hb0)
  · calc env.vector_weight * vectorScoreOf vdocs i +
        env.bm25_weight * bm25ScoreOf braw i
        ≤ env.vector_weight * 1 + env.bm25_weight * 1 := by
          exact add_le_add (mul_le_mul_of_nonneg_left hv1 hw1)
            (mul_le_mul_of_nonneg_left hb1 hw2)
      _ = env.vector_weight + env.bm25_weight := by ring
      _ ≤ 1 := hw

/-! ### Concrete fixtures used to instantiate the theorems -/

/-- A high-scoring chunk whose content overlaps the query "refund". -/
def chunkA1 : Chunk :=
  ⟨"refund policy information", 9/10,
    ⟨"d1", "billing", "How do refunds work?",
      "Refunds are processed within five business days.", ["refund"]⟩⟩

/-- A mid-scoring chunk (fused score 0.5). -/
def chunkA2 : Chunk := ⟨"second doc", 1/2, ⟨"d2", "billing", "q2", "a2", []⟩⟩

/-- A chunk with fused score 0.4. -/
def chunkA3 : Chunk := ⟨"third doc", 2/5, ⟨"d3", "billing", "q3", "a3", []⟩⟩

/-- A chunk with fused score 0.2. -/
def chunkB2 : Chunk := ⟨"second doc", 1/5, ⟨"d2", "billing", "q2", "a2", []⟩⟩

/-- A chunk with fused score 0.1. -/
def chunkB3 : Chunk := ⟨"third doc", 1/10, ⟨"d3", "billing", "q3", "a3", []⟩⟩

/-- A chunk whose fused score 0.5 is below the default similarity
threshold 0.65. -/
def chunkLow : Chunk :=
  ⟨"billing information", 1/2, ⟨"d9", "billing", "q9", "a9", []⟩⟩

/-- A one-document retriever environment with the default fusion
weights. -/
def env1 : RetrieverEnv :=
  { documentTexts :=
      ["Category: billing Question: refund Answer: refunds processed Tags: refund"]
    metadata :=
      [⟨"doc-1", "billing", "How do refunds work?",
        "Refunds are processed within five business days.", ["refund"]⟩]
    vector_weight := 7/10
    bm25_weight := 3/10
    k := 5 }

/-- A validation oracle that runs the embedded `validate` and never
throws. -/
def valOracle :
    List Chunk → String → Except String (Bool × ℚ × ValidationReason) :=
  fun chunks q => Except.ok (validate defaultConfig chunks q)

/-- A generation oracle that returns a fixed long answer and never
throws. -/
def genOracle : List Chunk → Except String String :=
  fun _ => Except.ok "A sufficiently long generated answer."

/-! ### Claim theorems -/

/-- Claim C10: for every non-empty chunk list and every query, the
confidence returned by `validate_relevance` equals the first chunk's fused
score in every branch (accept, threshold block, variance block, and
keyword-overlap block), so even a blocked result reports the top chunk's
score rather than 0. -/
theorem validate_confidence_is_top_score (cfg : Config) (c : Chunk)
    (rest : List Chunk) (q : String) :
    (validate cfg (c :: rest) q).2.1 = c.score := by
  simp only [validate]
  split
  · rfl
  · split
    · rfl
    · split
      · rfl
      · rfl

/-- Claim C5: a non-empty chunk list whose top fused score is strictly
below `similarity_threshold` is blocked by `validate_relevance`
(`is_valid = false`) regardless of how many chunks follow, and the
returned confidence is the top chunk's score. -/
theorem validate_below_threshold_blocks (cfg : Config) (c : Chunk)
    (rest : List Chunk) (q : String)
    (h : c.score < cfg.similarity_threshold) :
    validate cfg (c :: rest) q =
      (false, c.score,
        ValidationReason.belowThreshold c.score cfg.similarity_threshold) := by
  simp only [validate]
  rw [if_pos h]

/-- Witness for C5: a single chunk with fused score 0.5 is blocked at the
default threshold 0.65, with confidence 0.5. -/
theorem validate_below_threshold_blocks_witness :
    validate defaultConfig [chunkLow] "billing question" =
      (false, 1/2, ValidationReason.belowThreshold (1/2) (13/20)) := by
  have h := validate_below_threshold_blocks defaultConfig chunkLow []
    "billing question" (by norm_num [chunkLow, defaultConfig])
  simpa [chunkLow, defaultConfig] using h

/-- Claim C1 (counterexample): three chunks with fused scores 0.9, 0.5,
0.4 and adequate keyword overlap are ACCEPTED by `validate_relevance`:
the population variance of the top-3 scores is 7/150 ≈ 0.047, which does
not exceed the default `variance_threshold` 0.1, so — contrary to the
claim — the consistency check does not block this query. -/
theorem scenarioD_not_variance_blocked :
    validate defaultConfig [chunkA1, chunkA2, chunkA3] "refund" =
      (true, 9/10, ValidationReason.allPassed) := by
  have hq : contentWords "refund" = ["refund"] := by decide
  have hc : contentWords "refund policy information" =
      ["refund", "policy", "information"] := by decide
  simp only [validate, chunkA1, chunkA2, chunkA3, defaultConfig]
  rw [if_neg (by norm_num)]
  rw [if_neg (by norm_num [popVariance])]
  rw [if_neg (by norm_num [overlapFrac, hq, hc])]

/-- Claim C1 (amended): with the default `variance_threshold` 0.1, top-3
fused scores 0.9, 0.5, 0.4 have population variance 7/150 ≈ 0.047 and do
NOT trigger the consistency block; a variance block does occur for top-3
fused scores whose population variance exceeds 0.1, e.g. 0.9, 0.2, 0.1
(variance 19/150 ≈ 0.127), which are blocked with the variance reason
even though the top score clears the similarity threshold. -/
theorem variance_block_amended :
    validate defaultConfig [chunkA1, chunkB2, chunkB3] "refund" =
      (false, 9/10, ValidationReason.highVariance (19/150)) := by
  have hv : popVariance [(9:ℚ)/10, 1/5, 1/10] = 19/150 := by
    norm_num [popVariance]
  simp only [validate, chunkA1, chunkB2, chunkB3, defaultConfig,
    List.take_succ_cons, List.take_zero, List.map_cons, List.map_nil]
  rw [if_neg (by norm_num)]
  rw [if_pos ⟨by norm_num, by rw [hv]; norm_num⟩]
  rw [hv]

/-- Claim C9: when chunks were retrieved, a generated text that (after
stripping) contains a refusal phrase, or is empty, or is shorter than 10
characters, is discarded by `generate_answer` in favour of the top
chunk's stored canonical answer — independent of which backend produced
the raw text (the raw text is an arbitrary string input here). -/
theorem generate_answer_fallback (top : Chunk) (rest : List Chunk)
    (raw : String)
    (h : containsRefusal (pyStrip raw) = true ∨ pyStrip raw = "" ∨
      (pyStrip raw).data.length < 10) :
    generateAnswer (top :: rest) raw = top.metadata.answer := by
  cases hc : containsRefusal (pyStrip raw) with
  | true =>
    simp only [generateAnswer]
    rw [hc]
    simp
  | false =>
    rcases h with h | h | h
    · rw [hc] at h
      cases h
    · rw [h] at hc
      simp only [generateAnswer]
      rw [h, hc]
      simp
    · simp only [generateAnswer]
      rw [hc]
      have h2 : (pyStrip raw).length < 10 := h
      simp [h2]

/-- Witness for C9: the raw generation "i cannot help" contains the
refusal phrase "i cannot", so the top chunk's stored answer is returned
instead. -/
theorem generate_answer_fallback_witness :
    generateAnswer [chunkA1] "i cannot help" =
      "Refunds are processed within five business days." :=
  generate_answer_fallback chunkA1 [] "i cannot help" (Or.inl (by decide))

/-- Claim C8: a blank query (empty or whitespace-only) is rejected by
`query` immediately with the fixed prompt-for-input answer, no chunks,
confidence 0 and `blocked = true`; the result does not depend on the
retrieval, validation or generation oracles, so no retrieval or index
lookup is observable. -/
theorem query_blank_rejected (cfg : Config)
    (rO : Except String (List Chunk))
    (vO : List Chunk → String → Except String (Bool × ℚ × ValidationReason))
    (gO : List Chunk → Except String String) (q : String) (t : ℚ)
    (h : isBlank q = true) :
    queryRun cfg rO vO gO q t =
      { answer := "Please provide a valid question.", chunks := [],
        confidence := 0, blocked := true, response_time_ms := t } := by
  unfold queryRun
  rw [if_pos h]

/-- Witness for C8: the whitespace query "  " is rejected with the fixed
message even when the retrieval oracle would throw. -/
theorem query_blank_rejected_witness :
    queryRun defaultConfig (Except.error "retriever down") valOracle
      genOracle "  " 3 =
      { answer := "Please provide a valid question.", chunks := [],
        confidence := 0, blocked := true, response_time_ms := 3 } :=
  query_blank_rejected defaultConfig (Except.error "retriever down")
    valOracle genOracle "  " 3 (by decide)

/-- Every successful run of the `try` body of `query` stamps the measured
elapsed time into the result. -/
theorem queryBody_ok_time {cfg : Config} {rO : Except String (List Chunk)}
    {vO : List Chunk → String → Except String (Bool × ℚ × ValidationReason)}
    {gO : List Chunk → Except String String} {q : String} {t : ℚ}
    {r : QueryResult} (h : queryBody cfg rO vO gO q t = Except.ok r) :
    r.response_time_ms = t := by
  unfold queryBody at h
  split at h
  · exact Except.noConfusion h
  · split at h
    · exact Except.noConfusion h
    · split at h
      · exact Except.noConfusion h
      · injection h with h2
        rw [← h2]

/-- Claim C2: `query` never lets an exception escape: its result always
carries the elapsed-time field, and whenever its body (retrieval,
validation or generation) raises, the result is the generic apology
answer with `blocked = true`, confidence 0 and no chunks. -/
theorem query_error_boundary (cfg : Config)
    (rO : Except String (List Chunk))
    (vO : List Chunk → String → Except String (Bool × ℚ × ValidationReason))
    (gO : List Chunk → Except String String) (q : String) (t : ℚ) :
    (queryRun cfg rO vO gO q t).response_time_ms = t ∧
    (∀ e, isBlank q = false → queryBody cfg rO vO gO q t = Except.error e →
      queryRun cfg rO vO gO q t =
        { answer := "I encountered an error while processing your question. Please try again or contact support.",
          chunks := [], confidence := 0, blocked := true,
          response_time_ms := t }) := by
  constructor
  · unfold queryRun
    split
    · rfl
    · cases hb : queryBody cfg rO vO gO q t with
      | error e => simp
      | ok r => simpa using queryBody_ok_time hb
  · intro e hnb hbody
    unfold queryRun
    rw [if_neg (by simp [hnb])]
    rw [hbody]

/-- Witness for C2: a throwing retrieval oracle on the query "hello" is
converted into the generic apology result with elapsed time 3. -/
theorem query_error_boundary_witness :
    queryRun defaultConfig (Except.error "retriever down") valOracle
      genOracle "hello" 3 =
      { answer := "I encountered an error while processing your question. Please try again or contact support.",
        chunks := [], confidence := 0, blocked := true,
        response_time_ms := 3 } :=
  (query_error_boundary defaultConfig (Except.error "retriever down")
    valOracle genOracle "hello" 3).2 "retriever down" (by decide) rfl

/-- Claim C7: the lexical normalization divisor `bm25_max` is always
positive (no division by zero can occur); under the BM25 library's
guarantee that raw scores are non-negative, every normalized lexical
score lies in [0, 1], and when the raw maximum is 0 every lexical score
is 0. -/
theorem lexical_norm_safe (braw : List ℚ) (i : ℕ) :
    0 < bm25MaxOf braw ∧
    ((∀ s ∈ braw, 0 ≤ s) →
      (0 ≤ bm25ScoreOf braw i ∧ bm25ScoreOf braw i ≤ 1) ∧
      (listMax braw = 0 → bm25ScoreOf braw i = 0)) := by
  refine ⟨bm25MaxOf_pos braw,
    fun hb => ⟨bm25ScoreOf_bounds hb i, fun hmax => ?_⟩⟩
  have hz : ∀ x ∈ bm25NormalizedOf braw, x = 0 := by
    intro x hx
    unfold bm25NormalizedOf at hx
    rw [if_pos (bm25MaxOf_pos braw)] at hx
    rcases List.mem_map.mp hx with ⟨s, hs, rfl⟩
    have hs0 : s = 0 := le_antisymm (hmax ▸ mem_le_listMax hs) (hb s hs)
    simp [hs0]
  unfold bm25ScoreOf
  rcases Nat.lt_or_ge i (bm25NormalizedOf braw).length with hlt | hge
  · rw [List.getD_eq_getElem _ _ hlt]
    exact hz _ (List.getElem_mem hlt)
  · rw [List.getD_eq_default _ _ hge]

/-- Witness for C7: on the all-zero raw score vector [0, 0] the divisor
is positive and the normalized score of document 0 is 0 (and in
[0, 1]). -/
theorem lexical_norm_safe_witness :
    0 < bm25MaxOf [(0:ℚ), 0] ∧ 0 ≤ bm25ScoreOf [(0:ℚ), 0] 0 ∧
      bm25ScoreOf [(0:ℚ), 0] 0 ≤ 1 ∧ bm25ScoreOf [(0:ℚ), 0] 0 = 0 := by
  have h := lexical_norm_safe [(0:ℚ), 0] 0
  have hb : ∀ s ∈ [(0:ℚ), 0], 0 ≤ s := by
    intro s hs
    rcases List.mem_cons.mp hs with rfl | hs2
    · exact le_refl 0
    · rcases List.mem_singleton.mp hs2 with rfl
      exact le_refl 0
  have hmax : listMax [(0:ℚ), 0] = 0 := by
    simp [listMax]
  exact ⟨h.1, ((h.2 hb).1).1, ((h.2 hb).1).2, (h.2 hb).2 hmax⟩

/-- Claim C6: the hybrid ranking is a permutation of the whole corpus
(every document index appears exactly once), ordered so that consecutive
elements are strictly ranked: larger combined score first, and among
equal combined scores the smaller (earlier-corpus) index first — i.e. a
stable descending sort with corpus order as the only tie-break. -/
theorem hybrid_ranking_stable (env : RetrieverEnv) (vdocs : List (ℕ × ℚ))
    (braw : List ℚ) :
    List.Perm (rankedIndices env vdocs braw)
      (List.range env.documentTexts.length) ∧
    (rankedIndices env vdocs braw).Pairwise
      (rankRel (combinedScore env vdocs braw)) :=
  ⟨sortDesc_perm _ _, sortDesc_pairwise (List.pairwise_lt_range _)⟩

/-- Claim C4: every document produced by the hybrid retrieval carries the
fused score together with both component scores (the vector similarity
and the normalized lexical score) and the content and metadata of the
originating corpus record at some valid index. -/
theorem hybrid_chunks_carry_fields (env : RetrieverEnv)
    (vdocs : List (ℕ × ℚ)) (braw : List ℚ) (q : String) :
    ∀ d ∈ hybridSearch env vdocs braw q,
      ∃ i, i < env.documentTexts.length ∧
        d.score = combinedScore env vdocs braw i ∧
        d.vector_score = vectorScoreOf vdocs i ∧
        d.bm25_score = bm25ScoreOf braw i ∧
        d.content = env.documentTexts.getD i "" ∧
        d.metadata = env.metadata.getD i ⟨"", "", "", "", []⟩ := by
  intro d hd
  unfold hybridSearch at hd
  split at hd
  · cases hd
  · rcases List.mem_map.mp hd with ⟨i, hi, rfl⟩
    have hiR : i ∈ rankedIndices env vdocs braw := List.take_subset _ _ hi
    have hr : i ∈ List.range env.documentTexts.length :=
      (sortDesc_perm _ _).mem_iff.mp hiR
    exact ⟨i, List.mem_range.mp hr, rfl, rfl, rfl, rfl, rfl⟩

/-- Witness for C4: the single document retrieved for "refund" from the
one-document corpus carries exactly the fused and component scores and
the record's content and metadata at index 0. -/
theorem hybrid_chunks_carry_fields_witness :
    ∃ i, i < env1.documentTexts.length ∧
      (mkRetrievedDoc env1 [(0, 0)] [2] 0).score =
        combinedScore env1 [(0, 0)] [2] i ∧
      (mkRetrievedDoc env1 [(0, 0)] [2] 0).vector_score =
        vectorScoreOf [(0, 0)] i ∧
      (mkRetrievedDoc env1 [(0, 0)] [2] 0).bm25_score =
        bm25ScoreOf [2] i ∧
      (mkRetrievedDoc env1 [(0, 0)] [2] 0).content =
        env1.documentTexts.getD i "" ∧
      (mkRetrievedDoc env1 [(0, 0)] [2] 0).metadata =
        env1.metadata.getD i ⟨"", "", "", "", []⟩ := by
  have hlist : hybridSearch env1 [(0, 0)] [2] "refund" =
      [mkRetrievedDoc env1 [(0, 0)] [2] 0] := by
    unfold hybridSearch
    rw [if_neg (by decide)]
    rfl
  exact hybrid_chunks_carry_fields env1 [(0, 0)] [2] "refund" _
    (hlist ▸ List.mem_singleton.mpr rfl)

/-- Claim C3: for every query and requested `topK`, under non-negative
fusion weights summing to at most 1 (defaults 0.7 + 0.3 = 1),
non-negative FAISS distances and non-negative raw BM25 scores,
`retrieve` returns at most `topK` chunks, each fused score lies in
[0, 1], and the returned sequence is sorted descending by fused
score. -/
theorem retrieve_topk_sorted (env : RetrieverEnv) (vdocs : List (ℕ × ℚ))
    (braw : List ℚ) (q : String) (topK : ℕ)
    (hw1 : 0 ≤ env.vector_weight) (hw2 : 0 ≤ env.bm25_weight)
    (hw : env.vector_weight + env.bm25_weight ≤ 1)
    (hd : ∀ p ∈ vdocs, 0 ≤ p.2) (hb : ∀ s ∈ braw, 0 ≤ s) :
    (retrieve env vdocs braw q topK).length ≤ topK ∧
    (∀ c ∈ retrieve env vdocs braw q topK, 0 ≤ c.score ∧ c.score ≤ 1) ∧
    ((retrieve env vdocs braw q topK).map Chunk.score).Pairwise
      (· ≥ ·) := by
  unfold retrieve
  split
  · simp
  · refine ⟨?_, ?_, ?_⟩
    · rw [List.length_map, List.length_take]
      exact min_le_left _ _
    · intro c hc
      rcases List.mem_map.mp hc with ⟨d, hdmem, rfl⟩
      have hdh : d ∈ hybridSearch env vdocs braw q :=
        List.take_subset _ _ hdmem
      unfold hybridSearch at hdh
      split at hdh
      · cases hdh
      · rcases List.mem_map.mp hdh with ⟨i, _, rfl⟩
        exact combinedScore_bounds hw1 hw2 hw hd hb i
    · rw [List.map_map]
      unfold hybridSearch
      split
      · simp
      · rw [← List.map_take, List.map_map, List.take_take]
        refine List.pairwise_map.mpr ?_
        have hsub : ((List.take (min topK env.k)
            (rankedIndices env vdocs braw))).Sublist
            (rankedIndices env vdocs braw) := List.take_sublist _ _
        have hpw := (sortDesc_pairwise
          (List.pairwise_lt_range env.documentTexts.length)).sublist hsub
        refine hpw.imp ?_
        intro a b hab
        rcases hab with hlt | ⟨heq, _⟩
        · exact le_of_lt hlt
        · exact le_of_eq heq.symm

/-- Witness for C3: on the one-document corpus with default weights,
distance 0 and raw BM25 score 2, the retrieval for "refund" with
`topK = 5` has length at most 5 and descending scores. -/
theorem retrieve_topk_sorted_witness :
    (retrieve env1 [(0, 0)] [2] "refund" 5).length ≤ 5 ∧
    ((retrieve env1 [(0, 0)] [2] "refund" 5).map Chunk.score).Pairwise
      (· ≥ ·) := by
  have h := retrieve_topk_sorted env1 [(0, 0)] [2] "refund" 5
    (by norm_num [env1]) (by norm_num [env1]) (by norm_num [env1])
    (by intro p hp; rcases List.mem_singleton.mp hp with rfl; norm_num)
    (by intro s hs; rcases List.mem_singleton.mp hs with rfl; norm_num)
  exact ⟨h.1, h.2.2⟩

end Rag
